import Mathlib

/-!
Verification of the row-virtualization reducer `computeRenderedRows`
(src/src/reducers/computeRenderedRows.js) and its earlier evolution
(src/unnamed/part_000).

Shallow embedding conventions:
* JS numbers that hold row counts, row indices and slot positions are `Nat`;
  heights, offsets and scroll positions are `Int`.
* The external collaborators (`updateRowHeight`, `roughHeightsSelector`,
  `scrollbarsVisibleSelector`, `tableHeightsSelector`, `rowOffsets.sumUntil`)
  are out of scope per the spec (§1, §6).  Their contracts say the height
  oracle is deterministic and cached, so `storedHeights` and
  `updateRowHeight` are both modelled by one pure function `heights`, and
  the selector outputs are constant fields of `Params` (they depend only on
  state fields this reducer never writes).  The eager buffer touch loops of
  `calculateRenderedRowRange` only warm the height cache, so they are
  no-ops here.
* `state.rows` is a sparse JS array mapping slot positions to row indices;
  it is modelled as an association list slot-to-row in which an indexed
  write replaces the entry for that slot.  `state.rowHeights` is a JS
  object keyed by row index, modelled as `Nat → Option Int` (`none` means
  the key is absent).
-/

/-- Constant inputs of one reducer call: row settings plus the outputs of the
external selector collaborators (spec §6), and the deterministic height
oracle shared by `storedHeights`, `updateRowHeight` and
`rowOffsets.sumUntil`. -/
structure Params where
  rowsCount : Nat
  bufferRowCount : Nat
  maxAvailableHeight : Int
  availableHeight : Int
  bodyHeight : Int
  scrollContentHeight : Int
  heights : Nat → Int

/-- The scrollAnchor argument.  `lastIndex = none` models JS `undefined`;
`scrollJumpedY` is compared with `=== true` in the source, so absent and
`false` coincide and a `Bool` suffices. -/
structure ScrollAnchor where
  firstIndex : Nat
  firstOffset : Int
  lastIndex : Option Nat
  scrollJumpedY : Bool
deriving DecidableEq

/-- Return value of `calculateRenderedRowRange`. -/
structure RowRange where
  endBufferIdx : Nat
  endViewportIdx : Nat
  firstBufferIdx : Nat
  firstViewportIdx : Nat
deriving DecidableEq

/-- Modelled from the spec: the SlotAllocator (`bufferSet`,
`IntegerBufferSet`), whose implementation is not under src/.  Spec §4.2: a
bidirectional RowIndex-to-Slot mapping of bounded cardinality, with O(1)
lookup, fresh allocation, and furthest-outside eviction.  The mapping is
kept as a row-to-slot association list.  A fresh slot is the current
occupant count (the real pool pushes a new position at the end, and
eviction keeps the count constant, so that slot is always unused).  The
eviction tie break follows spec §4.2: maximal distance, ties broken by
smaller row index. -/
structure BufferSet where
  pairs : List (Nat × Nat)
deriving DecidableEq

/-- Modelled from the spec: `positionOf(rowIndex)`, O(1) lookup of the slot
bound to a row. -/
def getValuePosition (bs : BufferSet) (r : Nat) : Option Nat :=
  (bs.pairs.find? (fun q => q.1 == r)).map Prod.snd

/-- Modelled from the spec: `allocateFresh(rowIndex)` binds a previously
unused slot; the slot chosen is the current occupant count. -/
def getNewPositionForValue (bs : BufferSet) (r : Nat) : Nat × BufferSet :=
  (bs.pairs.length, ⟨(r, bs.pairs.length) :: bs.pairs⟩)

/-- Modelled from the spec: eviction distance of a row index from the closed
protected interval `[lo, hi]`, `max(lo − idx, idx − hi, 0)` (truncated
subtraction makes the 0 implicit). -/
def evictDistance (lo hi idx : Nat) : Nat :=
  max (lo - idx) (idx - hi)

/-- Modelled from the spec: the deterministic eviction preference, maximal
distance first, ties broken by smaller row index. -/
def betterVictim (lo hi : Nat) (q w : Nat × Nat) : Bool :=
  decide (evictDistance lo hi w.1 < evictDistance lo hi q.1) ||
    (decide (evictDistance lo hi q.1 = evictDistance lo hi w.1) && decide (q.1 < w.1))

/-- Modelled from the spec: select the occupant to evict among candidates. -/
def pickVictim (lo hi : Nat) : List (Nat × Nat) → Option (Nat × Nat)
  | [] => none
  | q :: rest =>
    match pickVictim lo hi rest with
    | none => some q
    | some w => if betterVictim lo hi q w then some q else some w

/-- Modelled from the spec: `evictFurthestOutside(rangeStart, rangeEnd,
rowIndex)`: among occupants bound outside the closed interval `[lo, hi]`,
rebind the slot of the preferred victim to `r`; `none` when every occupant
is inside the protected interval. -/
def replaceFurthestValuePosition (bs : BufferSet) (lo hi r : Nat) : Option (Nat × BufferSet) :=
  match pickVictim lo hi (bs.pairs.filter (fun q => decide (q.1 < lo) || decide (hi < q.1))) with
  | none => none
  | some w => some (w.2, ⟨(r, w.2) :: bs.pairs.filter (fun q => !(q.1 == w.1))⟩)

/-- One row-virtualization state record (the reducer input and output).
Fields the reducer never writes and that its collaborators do not consume
are omitted; `scrolling` selects viewport-only mode, and `bufferSet` is the
long-lived allocator carried by reference in JS. -/
structure TableState where
  firstRowIndex : Nat
  firstRowOffset : Int
  rows : List (Nat × Nat)
  rowHeights : Nat → Option Int
  scrollY : Int
  scrolling : Bool
  maxScrollY : Int
  scrollJumpedY : Bool
  bufferSet : BufferSet

/-- `rowOffsets.sumUntil(idx)`: cumulative height of rows `[0, idx)`
(collaborator contract, spec §6), expressed with the same height oracle. -/
def sumUntil (p : Params) (n : Nat) : Int :=
  ((List.range n).map p.heights).sum

/-- lodash `clamp(x, lower, upper)`: the upper bound is applied first, then
the lower bound, so the lower bound wins when they cross. -/
def clampInt (x lo hi : Int) : Int :=
  max lo (min x hi)

/-- The forward viewport walk of `calculateRenderedRowRange` (lines
132-139), accumulating heights from `firstIndex` upward while
`rowIdx < rowsCount` and `totalHeight < maxAvailableHeight`; returns the
final `(endIdx, totalHeight)`.  The loop is bounded by an explicit fuel so
that it is structurally recursive: the walk starts at `startIdx ≥ 0` and
`rowIdx` strictly increases, so after `rowsCount` steps the condition
`rowIdx < rowsCount` is false and the fuel never cuts the loop short. -/
def walkFwdAux (p : Params) : Nat → Nat → Int → Nat → Nat × Int
  | 0, _, t, e => (e, t)
  | fuel + 1, rowIdx, t, e =>
    if rowIdx < p.rowsCount ∧ t < p.maxAvailableHeight then
      walkFwdAux p fuel (rowIdx + 1) (t + p.heights rowIdx) rowIdx
    else (e, t)

/-- The forward walk entry point: `endIdx` starts at `startIdx` and the
accumulator starts at the anchor `firstOffset`. -/
def walkFwd (p : Params) (startIdx : Nat) (firstOffset : Int) : Nat × Int :=
  walkFwdAux p p.rowsCount startIdx firstOffset startIdx

/-- The backward viewport walk (same loop with `step = -1`): walks from
`lastIndex` down; in JS the loop exits when `rowIdx` reaches -1, which here
is the `rowIdx = 0` base case returning after processing row 0. -/
def walkBwd (p : Params) : Nat → Int → Nat → Nat × Int
  | 0, t, e =>
    if 0 < p.rowsCount ∧ t < p.maxAvailableHeight then (0, t + p.heights 0) else (e, t)
  | r + 1, t, e =>
    if r + 1 < p.rowsCount ∧ t < p.maxAvailableHeight then
      walkBwd p r (t + p.heights (r + 1)) (r + 1)
    else (e, t)

/-- The backward walk as invoked: accumulator 0, start and initial `endIdx`
both `lastIndex`. -/
def bwdWalk (p : Params) (li : Nat) : Nat × Int :=
  walkBwd p li 0 li

/-- Whether the anchor has a defined `lastIndex` that is `≥ rowsCount`
(JS `lastIndex >= rowsCount` is false for `undefined`). -/
def lastIndexOutOfRange (p : Params) (a : ScrollAnchor) : Bool :=
  match a.lastIndex with
  | some li => decide (p.rowsCount ≤ li)
  | none => false

/-- Lines 115-118: if `firstIndex >= rowsCount || lastIndex >= rowsCount`,
force `lastIndex = rowsCount - 1`; otherwise keep the anchor value. -/
def clampedLastIndex (p : Params) (a : ScrollAnchor) : Option Nat :=
  if p.rowsCount ≤ a.firstIndex ∨ lastIndexOutOfRange p a = true then
    some (p.rowsCount - 1)
  else a.lastIndex

/-- The forward (`lastIndex` undefined) branch of
`calculateRenderedRowRange` after the walk: viewport bounds from
`min`/`max` of start and end of the walk, buffer bounds clamped into
`[0, rowsCount]`, and `firstOffset` kept from the anchor.  The result
carries the `RowRange` and the `firstRowIndex`/`firstRowOffset` values the
source writes into state (lines 170-171). -/
def fwdRangeData (p : Params) (a : ScrollAnchor) : RowRange × Nat × Int :=
  let startIdx := a.firstIndex
  let w := walkFwd p startIdx a.firstOffset
  let firstViewportIdx := min startIdx w.1
  let firstBufferIdx := firstViewportIdx - p.bufferRowCount
  let endViewportIdx := max startIdx w.1 + 1
  let endBufferIdx := min (endViewportIdx + p.bufferRowCount) p.rowsCount
  (⟨endBufferIdx, endViewportIdx, firstBufferIdx, firstViewportIdx⟩,
    firstViewportIdx, a.firstOffset)

/-- The backward (`lastIndex` defined) branch: same range computation from
the backward walk, then the recomputed `firstOffset = min(availableHeight −
totalHeight, 0)` and, when `-firstOffset >= storedHeights[firstViewportIdx]`,
`firstViewportIdx` is incremented first and the height then read at the
incremented index (lines 164-167), exactly as in the source. -/
def bwdRangeData (p : Params) (li : Nat) : RowRange × Nat × Int :=
  let w := bwdWalk p li
  let firstViewportIdx := min li w.1
  let firstBufferIdx := firstViewportIdx - p.bufferRowCount
  let endViewportIdx := max li w.1 + 1
  let endBufferIdx := min (endViewportIdx + p.bufferRowCount) p.rowsCount
  let firstOffset := min (p.availableHeight - w.2) 0
  if p.heights firstViewportIdx ≤ -firstOffset then
    (⟨endBufferIdx, endViewportIdx, firstBufferIdx, firstViewportIdx + 1⟩,
      firstViewportIdx + 1, firstOffset + p.heights (firstViewportIdx + 1))
  else
    (⟨endBufferIdx, endViewportIdx, firstBufferIdx, firstViewportIdx⟩,
      firstViewportIdx, firstOffset)

/-- The pure core of `calculateRenderedRowRange`: `none` on the
`rowsCount == 0` early return (which writes nothing into state), otherwise
the branch selected by the presence of the clamped `lastIndex`.  The two
eager buffer-touch loops only warm the height cache and are no-ops here. -/
def calcRangeCore (p : Params) (a : ScrollAnchor) : Option (RowRange × Nat × Int) :=
  if p.rowsCount = 0 then none
  else
    match clampedLastIndex p a with
    | none => some (fwdRangeData p a)
    | some li => some (bwdRangeData p li)

/-- `calculateRenderedRowRange(state, scrollAnchor)`: returns the updated
state (the function mutates its already-cloned argument) and the
`RowRange`. -/
def calculateRenderedRowRange (p : Params) (st : TableState) (a : ScrollAnchor) :
    TableState × RowRange :=
  match calcRangeCore p a with
  | none => (st, ⟨0, 0, 0, 0⟩)
  | some (rr, fri, fro) =>
    ({ st with firstRowIndex := fri, firstRowOffset := fro }, rr)

/-- A JS indexed write `bufferMapping[slot] = row` on the slot-to-row
association list: the entry for that slot is replaced. -/
def slotSet (rows : List (Nat × Nat)) (slot row : Nat) : List (Nat × Nat) :=
  (slot, row) :: rows.filter (fun q => !(q.1 == slot))

/-- `addRowToBuffer(rowIdx, bufferSet, startRange, endRange, maxBufferSize)`
(lines 259-277): look up an existing slot; if absent and the pool holds at
least `maxBufferSize` rows, evict the furthest occupant outside the closed
interval `[startRange, endRange − 1]`; if still absent, allocate fresh. -/
def addRowToBuffer (rowIdx : Nat) (bs : BufferSet) (startRange endRange maxBufferSize : Nat) :
    Nat × BufferSet :=
  match getValuePosition bs rowIdx with
  | some pos => (pos, bs)
  | none =>
    if maxBufferSize ≤ bs.pairs.length then
      match replaceFurthestValuePosition bs startRange (endRange - 1) rowIdx with
      | some pr => pr
      | none => getNewPositionForValue bs rowIdx
    else getNewPositionForValue bs rowIdx

/-- lodash `inRange(n, start, end)` on naturals: `start ≤ n < end`. -/
def inRangeB (n lo hi : Nat) : Bool :=
  decide (lo ≤ n) && decide (n < hi)

/-- The main loop of `computeRenderedRowOffsets` (lines 220-233), walking
`rowIdx` from `firstBufferIdx` to `endBufferIdx − 1`: record the running
offset for every walked row, then (unless viewport-only mode skips a row
outside `[firstViewportIdx, endViewportIdx)`) obtain a slot through
`addRowToBuffer` and write the row into the slot mapping.  The fuel is the
exact iteration count `endBufferIdx − firstBufferIdx`; with it the guard
`rowIdx < endBufferIdx` fails exactly when the fuel runs out, so the loop
is never cut short. -/
def offsetsLoopAux (p : Params) (fvi evi ebi cnt : Nat) (vp : Bool) :
    Nat → Nat → Int → (Nat → Option Int) → List (Nat × Nat) → BufferSet →
    (Nat → Option Int) × List (Nat × Nat) × BufferSet
  | 0, _, _, c, mapping, bs => (c, mapping, bs)
  | fuel + 1, rowIdx, t, c, mapping, bs =>
    if rowIdx < ebi then
      let c2 : Nat → Option Int := fun j => if j = rowIdx then some t else c j
      let t2 := t + p.heights rowIdx
      if vp && (decide (rowIdx < fvi) || decide (evi ≤ rowIdx)) then
        offsetsLoopAux p fvi evi ebi cnt vp fuel (rowIdx + 1) t2 c2 mapping bs
      else
        let pr := addRowToBuffer rowIdx bs fvi evi cnt
        offsetsLoopAux p fvi evi ebi cnt vp fuel (rowIdx + 1) t2 c2 (slotSet mapping pr.1 rowIdx) pr.2
    else (c, mapping, bs)

/-- The loop entry point, starting at `firstBufferIdx`. -/
def offsetsLoop (p : Params) (fvi evi ebi cnt : Nat) (vp : Bool) (rowIdx : Nat) (t : Int)
    (c : Nat → Option Int) (mapping : List (Nat × Nat)) (bs : BufferSet) :
    (Nat → Option Int) × List (Nat × Nat) × BufferSet :=
  offsetsLoopAux p fvi evi ebi cnt vp (ebi - rowIdx) rowIdx t c mapping bs

/-- The viewport-only post pass (lines 238-239): for every row index value
in the list, copy its entry from the previous `rowHeights` object (copying
an absent entry keeps the key absent in this model). -/
def copyOver (old : Nat → Option Int) (L : List Nat) (c : Nat → Option Int) :
    Nat → Option Int :=
  L.foldl (fun c2 r => fun j => if j = r then old r else c2 j) c

/-- `computeRenderedRowOffsets(state, rowRange, computeWithinViewportOnly)`
(lines 197-244).  Empty range: reset `rows` and `rowHeights`.  Otherwise run
the walk (in viewport-only mode the mutated `state.rows` is the output
array, else a fresh one), then in viewport-only mode copy the previous
offsets of every row index still present in the mapping but outside
`[firstBufferIdx, endBufferIdx)`. -/
def computeRenderedRowOffsets (p : Params) (st : TableState) (rr : RowRange) (vp : Bool) :
    TableState :=
  let renderedRowsCount := rr.endBufferIdx - rr.firstBufferIdx
  if renderedRowsCount = 0 then
    { st with rowHeights := fun _ => none, rows := [] }
  else
    let bufferMapping := if vp then st.rows else []
    let r := offsetsLoop p rr.firstViewportIdx rr.endViewportIdx rr.endBufferIdx
      renderedRowsCount vp rr.firstBufferIdx (sumUntil p rr.firstBufferIdx)
      (fun _ => none) bufferMapping st.bufferSet
    let rowOffsetsCache :=
      if vp then
        copyOver st.rowHeights
          ((r.2.1.map Prod.snd).filter (fun x => !(inRangeB x rr.firstBufferIdx rr.endBufferIdx)))
          r.1
      else r.1
    { st with rowHeights := rowOffsetsCache, rows := r.2.1, bufferSet := r.2.2 }

/-- The correction anchor of the `maxScrollY == 0` edge case (lines 51-54):
`{firstOffset: 0, lastIndex: rowsCount - 1}`; `firstIndex` and
`scrollJumpedY` are absent in the source and unused on the backward path,
absent being 0 and false here. -/
def reAnchor (p : Params) : ScrollAnchor :=
  ⟨0, 0, some (p.rowsCount - 1), false⟩

/-- Lines 40-57 of `computeRenderedRows`: resolve the anchor into a range,
then, when `maxScrollY == 0`, re-resolve at `reAnchor` if the first
resolution put `firstViewportIdx > 0`, and force `firstRowOffset = 0`. -/
def resolvedPair (p : Params) (st : TableState) (a : ScrollAnchor) : TableState × RowRange :=
  let pass1 := calculateRenderedRowRange p st a
  if p.scrollContentHeight - p.bodyHeight = 0 then
    let t := if 0 < pass1.2.firstViewportIdx then
        calculateRenderedRowRange p pass1.1 (reAnchor p)
      else pass1
    ({ t.1 with firstRowOffset := 0 }, t.2)
  else pass1

/-- Line 59: the offset pass over the resolved range, in viewport-only mode
exactly when the input state was scrolling; the resolved range is kept for
the scroll position computation. -/
def offsetsRun (p : Params) (st : TableState) (a : ScrollAnchor) : TableState × RowRange :=
  let r := resolvedPair p st a
  (computeRenderedRowOffsets p r.1 r.2 st.scrolling, r.2)

/-- Lines 61-64: the resolved scroll position before clamping,
`rowHeights[firstViewportIdx] − firstRowOffset` when `rowsCount > 0`, else
the initial 0. -/
def resolvedScrollY (p : Params) (st : TableState) (a : ScrollAnchor) : Int :=
  let o := offsetsRun p st a
  if 0 < p.rowsCount then (o.1.rowHeights o.2.firstViewportIdx).getD 0 - o.1.firstRowOffset
  else 0

/-- `computeRenderedRows(state, scrollAnchor)` (lines 38-73), the unified
evolution: shallow-copy, resolve (with the `maxScrollY == 0` correction),
run the offset pass, then merge `maxScrollY`, the clamped `scrollY`, and
`scrollJumpedY = (anchor.scrollJumpedY === true) && (scrollY !==
state.scrollY)` computed on the pre-clamp value against the input state. -/
def computeRenderedRows (p : Params) (st : TableState) (a : ScrollAnchor) : TableState :=
  let o := offsetsRun p st a
  let maxScrollY := p.scrollContentHeight - p.bodyHeight
  { o.1 with
    maxScrollY := maxScrollY,
    scrollY := clampInt (resolvedScrollY p st a) 0 maxScrollY,
    scrollJumpedY := a.scrollJumpedY && decide (resolvedScrollY p st a ≠ st.scrollY) }

/-- The main loop of the earlier evolution of `computeRenderedRowOffsets`
(src/unnamed/part_000 lines 220-228): identical walk but with no
viewport-only skip, every walked row obtains a slot. -/
def offsetsLoopOldAux (p : Params) (fvi evi ebi cnt : Nat) :
    Nat → Nat → Int → (Nat → Option Int) → List (Nat × Nat) → BufferSet →
    (Nat → Option Int) × List (Nat × Nat) × BufferSet
  | 0, _, _, c, mapping, bs => (c, mapping, bs)
  | fuel + 1, rowIdx, t, c, mapping, bs =>
    if rowIdx < ebi then
      let c2 : Nat → Option Int := fun j => if j = rowIdx then some t else c j
      let t2 := t + p.heights rowIdx
      let pr := addRowToBuffer rowIdx bs fvi evi cnt
      offsetsLoopOldAux p fvi evi ebi cnt fuel (rowIdx + 1) t2 c2 (slotSet mapping pr.1 rowIdx) pr.2
    else (c, mapping, bs)

/-- The earlier evolution `computeRenderedRowOffsets(state, rowRange)`
(part_000 lines 201-232): always a full recompute into a fresh mapping. -/
def computeRenderedRowOffsetsOld (p : Params) (st : TableState) (rr : RowRange) : TableState :=
  let renderedRowsCount := rr.endBufferIdx - rr.firstBufferIdx
  if renderedRowsCount = 0 then
    { st with rowHeights := fun _ => none, rows := [] }
  else
    let r := offsetsLoopOldAux p rr.firstViewportIdx rr.endViewportIdx rr.endBufferIdx
      renderedRowsCount (rr.endBufferIdx - rr.firstBufferIdx) rr.firstBufferIdx
      (sumUntil p rr.firstBufferIdx) (fun _ => none) [] st.bufferSet
    { st with rowHeights := r.1, rows := r.2.1, bufferSet := r.2.2 }

/-- lodash `intersection(xs, ys)`: the values of `xs` also present in
`ys` (the part_000 carry-over uses only membership of the result, so
deduplication is immaterial). -/
def valuesIntersection (xs ys : List Nat) : List Nat :=
  xs.filter (fun r => ys.contains r)

/-- The earlier evolution `computeViewPortRenderedRowOffsets(state,
rowRange)` (part_000 lines 253-299): walk only `firstViewportIdx` to
`endViewportIdx` INCLUSIVE (the source loop runs `rowIdx <= endViewportIdx`)
mutating `state.rows` in place, then copy previous offsets for every row
present in both the old and the mutated mapping. -/
def computeViewPortRenderedRowOffsetsOld (p : Params) (st : TableState) (rr : RowRange) :
    TableState :=
  let renderedRowsCount := rr.endBufferIdx - rr.firstBufferIdx
  if renderedRowsCount = 0 then
    { st with rowHeights := fun _ => none, rows := [] }
  else
    let r := offsetsLoopOldAux p rr.firstViewportIdx rr.endViewportIdx (rr.endViewportIdx + 1)
      renderedRowsCount (rr.endViewportIdx + 1 - rr.firstViewportIdx) rr.firstViewportIdx
      (sumUntil p rr.firstBufferIdx) (fun _ => none) st.rows st.bufferSet
    let unchangedRows := valuesIntersection (r.2.1.map Prod.snd) (st.rows.map Prod.snd)
    { st with
      rowHeights := (copyOver st.rowHeights unchangedRows r.1),
      rows := r.2.1,
      bufferSet := r.2.2 }

/-- The earlier evolution `computeRenderedRows(state, scrollAnchor)`
(part_000 lines 38-78): when scrolling, run the viewport-only pass (and skip
the `maxScrollY == 0` correction); in both cases the full pass then runs on
the resolved range; `scrollY` starts from `state.scrollY` instead of 0. -/
def computeRenderedRowsOld (p : Params) (st : TableState) (a : ScrollAnchor) : TableState :=
  let pass1 := calculateRenderedRowRange p st a
  let maxScrollY := p.scrollContentHeight - p.bodyHeight
  let resolved :=
    if st.scrolling then
      (computeViewPortRenderedRowOffsetsOld p pass1.1 pass1.2, pass1.2)
    else
      -- the non-scrolling branch of part_000 (lines 52-62) is textually the
      -- same maxScrollY edge-case correction as the unified version, so the
      -- shared resolution helper embeds it (it re-resolves pass1 internally)
      resolvedPair p st a
  let fin := computeRenderedRowOffsetsOld p resolved.1 resolved.2
  let scrollY0 : Int :=
    if 0 < p.rowsCount then (fin.rowHeights resolved.2.firstViewportIdx).getD 0 - fin.firstRowOffset
    else st.scrollY
  { fin with
    maxScrollY := maxScrollY,
    scrollY := clampInt scrollY0 0 maxScrollY,
    scrollJumpedY := a.scrollJumpedY && decide (scrollY0 ≠ st.scrollY) }

/-- An update of an object store at one object id. -/
def storeWrite (store : Nat → TableState) (i : Nat) (st : TableState) : Nat → TableState :=
  fun j => if j = i then st else store j

/-- The store-level transliteration of `computeRenderedRows`, tracking which
object each assignment of the source targets.  Line 39 clones the caller
state `origId` into the fresh object `cloneId`; every subsequent write of
the source goes through the `newState` variable, hence to `cloneId`:
`calculateRenderedRowRange` and the edge-case correction write
`firstRowIndex`/`firstRowOffset` there (lines 40-57), the offset pass writes
`rows`/`rowHeights` there (line 59), and the final `Object.assign` writes
`maxScrollY`/`scrollY`/`scrollJumpedY` there (lines 68-72); the reads of
`state.scrolling` (line 59) and `state.scrollY` (line 65) target the
caller's object `origId`. -/
def computeRenderedRowsStore (p : Params) (store : Nat → TableState) (origId cloneId : Nat)
    (a : ScrollAnchor) : Nat → TableState :=
  let s1 := storeWrite store cloneId (store origId)
  let r := resolvedPair p (s1 cloneId) a
  let s2 := storeWrite s1 cloneId r.1
  let s3 := storeWrite s2 cloneId
    (computeRenderedRowOffsets p (s2 cloneId) r.2 (store origId).scrolling)
  let maxScrollY := p.scrollContentHeight - p.bodyHeight
  let scrollY0 : Int :=
    if 0 < p.rowsCount then
      ((s3 cloneId).rowHeights r.2.firstViewportIdx).getD 0 - (s3 cloneId).firstRowOffset
    else 0
  storeWrite s3 cloneId
    { s3 cloneId with
      maxScrollY := maxScrollY,
      scrollY := clampInt scrollY0 0 maxScrollY,
      scrollJumpedY := a.scrollJumpedY && decide (scrollY0 ≠ (store origId).scrollY) }

/-- The pool contents produced by a full pass over `[fbi, fbi + k)` starting
from an empty pool: row `fbi + j` is bound to slot `j`. -/
def buildPairs (fbi : Nat) : Nat → List (Nat × Nat)
  | 0 => []
  | k + 1 => (fbi + k, k) :: buildPairs fbi k

/-- The slot mapping produced by the same pass: slot `j` holds row
`fbi + j`. -/
def buildMap (fbi : Nat) : Nat → List (Nat × Nat)
  | 0 => []
  | k + 1 => (k, fbi + k) :: buildMap fbi k

/-- The offset cache produced by the walk alone, used to state that the
cache part of the loop is independent of the slot pool. -/
def cacheRun (p : Params) (ebi : Nat) : Nat → Nat → Int → (Nat → Option Int) → Nat → Option Int
  | 0, _, _, c => c
  | fuel + 1, rowIdx, t, c =>
    if rowIdx < ebi then
      cacheRun p ebi fuel (rowIdx + 1) (t + p.heights rowIdx)
        (fun j => if j = rowIdx then some t else c j)
    else c

/-- A blank state for concrete runs: empty mapping, empty offset object,
empty pool. -/
def st0 : TableState :=
  ⟨0, 0, [], fun _ => none, 0, false, 0, false, ⟨[]⟩⟩

/-- Two rows of heights 10 and 5, `maxAvailableHeight = 12`,
`availableHeight = 3` (the two can differ, which is exactly the situation
the source comments on at lines 161-162). -/
def pTwoRows : Params :=
  ⟨2, 0, 12, 3, 0, 0, fun n => if n = 0 then 10 else 5⟩

/-- A backward anchor at the last of the two rows. -/
def aBack : ScrollAnchor :=
  ⟨0, 0, some 1, false⟩

/-- Six rows of height 1 with `bufferRowCount = 2` and a two-row viewport;
anchored at row 4 this resolves to viewport `[4, 6)` and buffer `[2, 6)`. -/
def pSix : Params :=
  ⟨6, 2, 2, 2, 0, 0, fun _ => 1⟩

/-- The buffer `[2, 6)` viewport `[4, 6)` range over `pSix`. -/
def rrSix : RowRange :=
  ⟨6, 6, 2, 4⟩

/-- A state whose pool already binds the stale row 6 (valid for an earlier,
larger `rowsCount`) to slot 0. -/
def stPool6 : TableState :=
  { st0 with bufferSet := ⟨[(6, 0)]⟩ }

/-- A state carrying the stale row 100 in its slot mapping, its pool, and
its offsets object. -/
def stOld100 : TableState :=
  { st0 with
    rows := [(0, 100)],
    rowHeights := fun j => if j = 100 then some 777 else none,
    bufferSet := ⟨[(100, 0)]⟩ }

/-- One row of height 10, `maxScrollY = 10 − 5 = 5`. -/
def pOne : Params :=
  ⟨1, 0, 100, 100, 5, 10, fun _ => 10⟩

/-- A state whose recorded scroll position differs from the resolved one. -/
def stJump : TableState :=
  { st0 with scrollY := 5 }

/-- A forward anchor requesting a scroll jump. -/
def aJump : ScrollAnchor :=
  ⟨0, 0, none, true⟩

/-- A plain forward anchor. -/
def aNone : ScrollAnchor :=
  ⟨0, 0, none, false⟩

/-- Two rows of height 5 that exactly fill both the viewport and the body,
so `maxScrollY = 0`. -/
def pFit : Params :=
  ⟨2, 0, 5, 5, 10, 10, fun _ => 5⟩

/-- A forward anchor at the second row. -/
def aMid : ScrollAnchor :=
  ⟨1, 0, none, false⟩

theorem walkFwdAux_fst_lt (p : Params) :
    ∀ fuel rowIdx t e, e < p.rowsCount → (walkFwdAux p fuel rowIdx t e).1 < p.rowsCount := by
  intro fuel
  induction fuel with
  | zero => intro rowIdx t e he; simpa [walkFwdAux] using he
  | succ n ih =>
    intro rowIdx t e he
    rw [walkFwdAux]
    split
    · rename_i hcond
      exact ih _ _ _ hcond.1
    · simpa using he

theorem walkBwd_fst_le (p : Params) :
    ∀ rowIdx t e, (walkBwd p rowIdx t e).1 ≤ max rowIdx e := by
  intro rowIdx
  induction rowIdx with
  | zero =>
    intro t e
    rw [walkBwd]
    split
    · simp
    · simp
  | succ r ih =>
    intro t e
    rw [walkBwd]
    split
    · calc (walkBwd p r (t + p.heights (r + 1)) (r + 1)).1 ≤ max r (r + 1) := ih _ _
        _ ≤ max (r + 1) e := by omega
    · simp

theorem clampedLastIndex_none_first (p : Params) (a : ScrollAnchor)
    (h : clampedLastIndex p a = none) : a.firstIndex < p.rowsCount := by
  unfold clampedLastIndex at h
  split at h
  · cases h
  · rename_i hcond
    push_neg at hcond
    omega

theorem clampedLastIndex_some_lt (p : Params) (a : ScrollAnchor) (li : Nat)
    (h : clampedLastIndex p a = some li) (hrc : 0 < p.rowsCount) : li < p.rowsCount := by
  unfold clampedLastIndex at h
  split at h
  · cases h
    omega
  · rename_i hcond
    push_neg at hcond
    unfold lastIndexOutOfRange at hcond
    rw [h] at hcond
    simpa using hcond.2

theorem fwdRangeData_bounds (p : Params) (a : ScrollAnchor)
    (hs : a.firstIndex < p.rowsCount) :
    (fwdRangeData p a).1.firstBufferIdx ≤ (fwdRangeData p a).1.firstViewportIdx ∧
    (fwdRangeData p a).1.firstViewportIdx ≤ (fwdRangeData p a).1.endViewportIdx ∧
    (fwdRangeData p a).1.endViewportIdx ≤ (fwdRangeData p a).1.endBufferIdx ∧
    (fwdRangeData p a).1.endBufferIdx ≤ p.rowsCount ∧
    (fwdRangeData p a).1.firstBufferIdx < (fwdRangeData p a).1.endBufferIdx := by
  have he : (walkFwd p a.firstIndex a.firstOffset).1 < p.rowsCount :=
    walkFwdAux_fst_lt p p.rowsCount a.firstIndex a.firstOffset a.firstIndex hs
  unfold fwdRangeData
  simp only []
  omega

theorem bwdRangeData_bounds (p : Params) (li : Nat) (hli : li < p.rowsCount) :
    (bwdRangeData p li).1.firstBufferIdx ≤ (bwdRangeData p li).1.firstViewportIdx ∧
    (bwdRangeData p li).1.firstViewportIdx ≤ (bwdRangeData p li).1.endViewportIdx ∧
    (bwdRangeData p li).1.endViewportIdx ≤ (bwdRangeData p li).1.endBufferIdx ∧
    (bwdRangeData p li).1.endBufferIdx ≤ p.rowsCount ∧
    (bwdRangeData p li).1.firstBufferIdx < (bwdRangeData p li).1.endBufferIdx := by
  have he : (bwdWalk p li).1 ≤ li := by
    have := walkBwd_fst_le p li 0 li
    simpa [bwdWalk] using this
  simp only [bwdRangeData]
  split <;>
  · simp only []
    omega

theorem calcRangeCore_bounds (p : Params) (a : ScrollAnchor) (rr : RowRange) (fri : Nat)
    (fro : Int) (h : calcRangeCore p a = some (rr, fri, fro)) :
    rr.firstBufferIdx ≤ rr.firstViewportIdx ∧
    rr.firstViewportIdx ≤ rr.endViewportIdx ∧
    rr.endViewportIdx ≤ rr.endBufferIdx ∧
    rr.endBufferIdx ≤ p.rowsCount ∧
    rr.firstBufferIdx < rr.endBufferIdx := by
  unfold calcRangeCore at h
  split at h
  · cases h
  · rename_i hrc
    cases hcl : clampedLastIndex p a with
    | none =>
      rw [hcl] at h
      have hs : a.firstIndex < p.rowsCount := clampedLastIndex_none_first p a hcl
      have hb := fwdRangeData_bounds p a hs
      simp only [Option.some.injEq] at h
      rw [show rr = (fwdRangeData p a).1 from by rw [h]] at *
      exact hb
    | some li =>
      rw [hcl] at h
      have hli : li < p.rowsCount := clampedLastIndex_some_lt p a li hcl (by omega)
      have hb := bwdRangeData_bounds p li hli
      simp only [Option.some.injEq] at h
      rw [show rr = (bwdRangeData p li).1 from by rw [h]] at *
      exact hb

theorem calcRangeCore_isSome (p : Params) (a : ScrollAnchor) (h : 0 < p.rowsCount) :
    ∃ v, calcRangeCore p a = some v := by
  unfold calcRangeCore
  split
  · omega
  · cases hcl : clampedLastIndex p a with
    | none => exact ⟨_, rfl⟩
    | some li => exact ⟨_, rfl⟩

/-- C3: for every input state the RowRange returned by
calculateRenderedRowRange, including after the backward-path
firstViewportIdx advance, satisfies 0 ≤ firstBufferIdx ≤ firstViewportIdx ≤
endViewportIdx ≤ endBufferIdx ≤ rowsCount (the lower bounds on rowsCount,
firstIndex, lastIndex and bufferRowCount hold by the Nat embedding). -/
theorem rowRange_invariant (p : Params) (st : TableState) (a : ScrollAnchor) :
    0 ≤ (calculateRenderedRowRange p st a).2.firstBufferIdx ∧
    (calculateRenderedRowRange p st a).2.firstBufferIdx ≤
      (calculateRenderedRowRange p st a).2.firstViewportIdx ∧
    (calculateRenderedRowRange p st a).2.firstViewportIdx ≤
      (calculateRenderedRowRange p st a).2.endViewportIdx ∧
    (calculateRenderedRowRange p st a).2.endViewportIdx ≤
      (calculateRenderedRowRange p st a).2.endBufferIdx ∧
    (calculateRenderedRowRange p st a).2.endBufferIdx ≤ p.rowsCount := by
  unfold calculateRenderedRowRange
  cases hc : calcRangeCore p a with
  | none => simp
  | some v =>
    obtain ⟨rr, fri, fro⟩ := v
    have hb := calcRangeCore_bounds p a rr fri fro hc
    simp only []
    omega

/-- C9: with rowsCount > 0 the computed range is non-empty
(endBufferIdx − firstBufferIdx ≥ 1), so the reset branch of
computeRenderedRowOffsets is reached only when rowsCount = 0. -/
theorem range_nonempty_when_rows (p : Params) (st : TableState) (a : ScrollAnchor)
    (h : 0 < p.rowsCount) :
    1 ≤ (calculateRenderedRowRange p st a).2.endBufferIdx -
      (calculateRenderedRowRange p st a).2.firstBufferIdx := by
  obtain ⟨v, hc⟩ := calcRangeCore_isSome p a h
  obtain ⟨rr, fri, fro⟩ := v
  have hb := calcRangeCore_bounds p a rr fri fro hc
  unfold calculateRenderedRowRange
  rw [hc]
  simp only []
  omega

/-- C9 witness: a concrete single-row table has a non-empty range. -/
theorem range_nonempty_when_rows_witness :
    0 < pOne.rowsCount ∧
    1 ≤ (calculateRenderedRowRange pOne st0 aNone).2.endBufferIdx -
      (calculateRenderedRowRange pOne st0 aNone).2.firstBufferIdx :=
  ⟨by decide, range_nonempty_when_rows pOne st0 aNone (by decide)⟩

theorem computeRenderedRowOffsets_firstRowOffset (p : Params) (st : TableState) (rr : RowRange)
    (vp : Bool) : (computeRenderedRowOffsets p st rr vp).firstRowOffset = st.firstRowOffset := by
  simp only [computeRenderedRowOffsets]
  split
  · rfl
  · rfl

/-- C7: the returned scrollJumpedY is true exactly when the anchor has
scrollJumpedY strictly true and the resolved pre-clamp scrollY differs from
the input state scrollY; in particular it is false whenever the anchor does
not request a jump. -/
theorem scrollJumpedY_iff (p : Params) (st : TableState) (a : ScrollAnchor) :
    (computeRenderedRows p st a).scrollJumpedY = true ↔
      (a.scrollJumpedY = true ∧ resolvedScrollY p st a ≠ st.scrollY) := by
  unfold computeRenderedRows
  simp only []
  rw [Bool.and_eq_true]
  simp

/-- C6: when maxScrollY (= scrollContentHeight − bodyHeight) is 0 and the
first resolution yields firstViewportIdx > 0, the window is re-resolved
with the anchor containing firstOffset 0 and lastIndex rowsCount − 1, and
the returned firstRowOffset is 0. -/
theorem maxScrollY_zero_edge (p : Params) (st : TableState) (a : ScrollAnchor)
    (h1 : p.scrollContentHeight - p.bodyHeight = 0)
    (h2 : 0 < (calculateRenderedRowRange p st a).2.firstViewportIdx) :
    resolvedPair p st a =
      ({ (calculateRenderedRowRange p (calculateRenderedRowRange p st a).1 (reAnchor p)).1 with
          firstRowOffset := 0 },
        (calculateRenderedRowRange p (calculateRenderedRowRange p st a).1 (reAnchor p)).2) ∧
    (computeRenderedRows p st a).firstRowOffset = 0 := by
  have hres : resolvedPair p st a =
      ({ (calculateRenderedRowRange p (calculateRenderedRowRange p st a).1 (reAnchor p)).1 with
          firstRowOffset := 0 },
        (calculateRenderedRowRange p (calculateRenderedRowRange p st a).1 (reAnchor p)).2) := by
    unfold resolvedPair
    rw [if_pos h1, if_pos h2]
  refine ⟨hres, ?_⟩
  unfold computeRenderedRows offsetsRun
  simp only []
  rw [computeRenderedRowOffsets_firstRowOffset, hres]

/-- C6 witness: two rows of height 5 fully fill the 10 body pixels
(maxScrollY = 0) while an anchor at row 1 resolves firstViewportIdx = 1. -/
theorem maxScrollY_zero_edge_witness :
    pFit.scrollContentHeight - pFit.bodyHeight = 0 ∧
    0 < (calculateRenderedRowRange pFit st0 aMid).2.firstViewportIdx ∧
    (computeRenderedRows pFit st0 aMid).firstRowOffset = 0 :=
  ⟨by decide, by decide,
    (maxScrollY_zero_edge pFit st0 aMid (by decide) (by decide)).2⟩

/-- C1 (amended): on the backward path with rowsCount > 0 the function
recomputes firstOffset as min(availableHeight − totalHeight, 0), and
whenever −firstOffset ≥ height(firstViewportIdx) it advances
firstViewportIdx by one; the height added back into firstOffset is the one
read at the ALREADY-ADVANCED index, i.e. the row after the skipped one
(the source increments before reading storedHeights), not the height of
the skipped row itself. -/
theorem backward_offset_recompute_amended (p : Params) (st : TableState) (a : ScrollAnchor)
    (li : Nat) (hcl : clampedLastIndex p a = some li) (hrc : p.rowsCount ≠ 0) :
    (p.heights (min li (bwdWalk p li).1) ≤ -(min (p.availableHeight - (bwdWalk p li).2) 0) →
      (calculateRenderedRowRange p st a).2.firstViewportIdx = min li (bwdWalk p li).1 + 1 ∧
      (calculateRenderedRowRange p st a).1.firstRowOffset =
        min (p.availableHeight - (bwdWalk p li).2) 0 +
          p.heights (min li (bwdWalk p li).1 + 1)) ∧
    (¬ p.heights (min li (bwdWalk p li).1) ≤ -(min (p.availableHeight - (bwdWalk p li).2) 0) →
      (calculateRenderedRowRange p st a).2.firstViewportIdx = min li (bwdWalk p li).1 ∧
      (calculateRenderedRowRange p st a).1.firstRowOffset =
        min (p.availableHeight - (bwdWalk p li).2) 0) := by
  unfold calculateRenderedRowRange calcRangeCore
  rw [if_neg hrc, hcl]
  constructor
  · intro hAdv
    simp only [bwdRangeData]
    rw [if_pos hAdv]
    exact ⟨rfl, rfl⟩
  · intro hAdv
    simp only [bwdRangeData]
    rw [if_neg hAdv]
    exact ⟨rfl, rfl⟩

/-- C1 witness: two rows of heights 10 and 5, availableHeight 3,
maxAvailableHeight 12; the backward walk totals 15, so firstOffset = −12,
the advance fires (12 ≥ 10), and the result is firstViewportIdx = 1 with
firstRowOffset = −12 + heights(1) = −7. -/
theorem backward_offset_recompute_amended_witness :
    clampedLastIndex pTwoRows aBack = some 1 ∧
    pTwoRows.rowsCount ≠ 0 ∧
    pTwoRows.heights (min 1 (bwdWalk pTwoRows 1).1) ≤
      -(min (pTwoRows.availableHeight - (bwdWalk pTwoRows 1).2) 0) ∧
    (calculateRenderedRowRange pTwoRows st0 aBack).2.firstViewportIdx =
      min 1 (bwdWalk pTwoRows 1).1 + 1 ∧
    (calculateRenderedRowRange pTwoRows st0 aBack).1.firstRowOffset =
      min (pTwoRows.availableHeight - (bwdWalk pTwoRows 1).2) 0 +
        pTwoRows.heights (min 1 (bwdWalk pTwoRows 1).1 + 1) :=
  ⟨by decide, by decide, by decide,
    (backward_offset_recompute_amended pTwoRows st0 aBack 1 (by decide) (by decide)).1 (by decide)⟩

/-- C1 counterexample: on the same input the backward advance fires
(firstViewportIdx goes from 0 to 1) but the resulting firstRowOffset is
−7 = −12 + heights(1), not −12 + heights(0) = −2 as the claim (add back the
height of the row advanced past) would require. -/
theorem backward_offset_skip_height_cex :
    clampedLastIndex pTwoRows aBack = some 1 ∧
    min 1 (bwdWalk pTwoRows 1).1 = 0 ∧
    min (pTwoRows.availableHeight - (bwdWalk pTwoRows 1).2) 0 = -12 ∧
    pTwoRows.heights 0 ≤ 12 ∧
    (calculateRenderedRowRange pTwoRows st0 aBack).2.firstViewportIdx = 0 + 1 ∧
    (calculateRenderedRowRange pTwoRows st0 aBack).1.firstRowOffset = -7 ∧
    (calculateRenderedRowRange pTwoRows st0 aBack).1.firstRowOffset ≠
      -12 + pTwoRows.heights 0 := by
  decide

/-- C10: no own property of the caller state object changes: the source
clones the state (line 39) and every assignment targets the clone, so the
store entry of the original object is untouched, and the clone entry holds
exactly the functional result. -/
theorem orig_state_unchanged (p : Params) (store : Nat → TableState) (origId cloneId : Nat)
    (a : ScrollAnchor) (h : origId ≠ cloneId) :
    computeRenderedRowsStore p store origId cloneId a origId = store origId ∧
    computeRenderedRowsStore p store origId cloneId a cloneId =
      computeRenderedRows p (store origId) a := by
  constructor
  · unfold computeRenderedRowsStore storeWrite
    simp [h]
  · unfold computeRenderedRowsStore storeWrite computeRenderedRows resolvedScrollY offsetsRun
    simp

/-- C10 witness: a two-object store with the original at id 0 and the clone
at id 1. -/
theorem orig_state_unchanged_witness :
    (0 : Nat) ≠ 1 ∧ computeRenderedRowsStore pOne (fun _ => st0) 0 1 aNone 0 = st0 :=
  ⟨by decide, (orig_state_unchanged pOne (fun _ => st0) 0 1 aNone (by decide)).1⟩

theorem copyOver_lookup (old : Nat → Option Int) :
    ∀ (L : List Nat) (c : Nat → Option Int) (r : Nat),
      copyOver old L c r = if r ∈ L then old r else c r := by
  intro L
  induction L with
  | nil => intro c r; simp [copyOver]
  | cons x L ih =>
    intro c r
    have hstep : copyOver old (x :: L) c =
        copyOver old L (fun j => if j = x then old x else c j) := rfl
    rw [hstep, ih]
    by_cases hx : r = x
    · subst hx
      by_cases hm : r ∈ L <;> simp [hm]
    · by_cases hm : r ∈ L <;> simp [hm, hx]

theorem offsetsLoopAux_cache (p : Params) (fvi evi ebi cnt : Nat) (vp : Bool) :
    ∀ (fuel rowIdx : Nat) (t : Int) (c : Nat → Option Int) (mapping : List (Nat × Nat))
      (bs : BufferSet),
      (offsetsLoopAux p fvi evi ebi cnt vp fuel rowIdx t c mapping bs).1 =
        cacheRun p ebi fuel rowIdx t c := by
  intro fuel
  induction fuel with
  | zero => intros; rfl
  | succ n ih =>
    intro rowIdx t c mapping bs
    simp only [offsetsLoopAux, cacheRun]
    split
    · split
      · exact ih (rowIdx + 1) _ _ _ _
      · exact ih (rowIdx + 1) _ _ _ _
    · rfl

theorem cacheRun_outside (p : Params) (ebi : Nat) :
    ∀ (fuel rowIdx : Nat) (t : Int) (c : Nat → Option Int) (r : Nat),
      (r < rowIdx ∨ rowIdx + fuel ≤ r) → cacheRun p ebi fuel rowIdx t c r = c r := by
  intro fuel
  induction fuel with
  | zero => intros; rfl
  | succ n ih =>
    intro rowIdx t c r hr
    rw [cacheRun]
    split
    · rw [ih (rowIdx + 1) _ _ r (by omega)]
      have hne : ¬ r = rowIdx := by omega
      simp [hne]
    · rfl

theorem cacheRun_inside (p : Params) (ebi : Nat) :
    ∀ (fuel rowIdx : Nat) (t : Int) (c : Nat → Option Int) (r : Nat),
      rowIdx ≤ r → r < rowIdx + fuel → r < ebi →
      cacheRun p ebi fuel rowIdx t c r ≠ none := by
  intro fuel
  induction fuel with
  | zero => intro rowIdx t c r h1 h2 h3; omega
  | succ n ih =>
    intro rowIdx t c r h1 h2 h3
    rw [cacheRun]
    rw [if_pos (show rowIdx < ebi by omega)]
    by_cases hr : r = rowIdx
    · subst hr
      rw [cacheRun_outside p ebi n (r + 1) _ _ r (by omega)]
      simp
    · exact ih (rowIdx + 1) _ _ r (by omega) (by omega) h3

theorem buildPairs_length (fbi : Nat) : ∀ k, (buildPairs fbi k).length = k := by
  intro k
  induction k with
  | zero => rfl
  | succ k ih => simp [buildPairs, ih]

theorem getValuePosition_buildPairs (fbi : Nat) :
    ∀ k r, getValuePosition ⟨buildPairs fbi k⟩ r =
      if fbi ≤ r ∧ r < fbi + k then some (r - fbi) else none := by
  intro k
  induction k with
  | zero =>
    intro r
    rw [if_neg (by omega)]
    rfl
  | succ k ih =>
    intro r
    by_cases hr : r = fbi + k
    · subst hr
      have h1 : getValuePosition ⟨buildPairs fbi (k + 1)⟩ (fbi + k) = some k := by
        simp [getValuePosition, buildPairs]
      rw [h1, if_pos (by omega)]
      congr 1
      omega
    · have h1 : getValuePosition ⟨buildPairs fbi (k + 1)⟩ r =
          getValuePosition ⟨buildPairs fbi k⟩ r := by
        simp only [getValuePosition, buildPairs, List.find?_cons]
        have hb : ((fbi + k, k).1 == r) = false := by
          simp
          omega
        rw [hb]
      rw [h1, ih]
      by_cases hm : fbi ≤ r ∧ r < fbi + k
      · rw [if_pos hm, if_pos (by omega)]
      · rw [if_neg hm, if_neg (by omega)]

theorem mem_buildMap (fbi : Nat) :
    ∀ k q, q ∈ buildMap fbi k ↔ ∃ j, j < k ∧ q = (j, fbi + j) := by
  intro k
  induction k with
  | zero => intro q; simp [buildMap]
  | succ k ih =>
    intro q
    rw [buildMap]
    simp only [List.mem_cons, ih]
    constructor
    · rintro (h | ⟨j, hj, rfl⟩)
      · exact ⟨k, by omega, h⟩
      · exact ⟨j, by omega, rfl⟩
    · rintro ⟨j, hj, rfl⟩
      by_cases hjk : j = k
      · subst hjk
        left
        rfl
      · right
        exact ⟨j, by omega, rfl⟩

theorem filter_buildMap_ne (fbi k : Nat) :
    (buildMap fbi k).filter (fun q => !(q.1 == k)) = buildMap fbi k := by
  rw [List.filter_eq_self]
  intro q hq
  obtain ⟨j, hj, rfl⟩ := (mem_buildMap fbi k q).mp hq
  simp
  omega

theorem slotSet_buildMap (fbi k : Nat) :
    slotSet (buildMap fbi k) k (fbi + k) = buildMap fbi (k + 1) := by
  unfold slotSet
  rw [filter_buildMap_ne]
  rfl

theorem mem_map_snd_buildMap (fbi k r : Nat) :
    r ∈ (buildMap fbi k).map Prod.snd ↔ (fbi ≤ r ∧ r < fbi + k) := by
  simp only [List.mem_map]
  constructor
  · rintro ⟨q, hq, rfl⟩
    obtain ⟨j, hj, rfl⟩ := (mem_buildMap fbi k q).mp hq
    simp
    omega
  · intro hr
    refine ⟨(r - fbi, r), ?_, rfl⟩
    rw [mem_buildMap]
    refine ⟨r - fbi, by omega, ?_⟩
    rw [Nat.add_sub_cancel' hr.1]

theorem addRowToBuffer_fresh_step (fvi evi cnt fbi j : Nat) (hj : j < cnt) :
    addRowToBuffer (fbi + j) ⟨buildPairs fbi j⟩ fvi evi cnt = (j, ⟨buildPairs fbi (j + 1)⟩) := by
  have hfind : getValuePosition ⟨buildPairs fbi j⟩ (fbi + j) = none := by
    rw [getValuePosition_buildPairs, if_neg (by omega)]
  have hsize : ¬ cnt ≤ (⟨buildPairs fbi j⟩ : BufferSet).pairs.length := by
    simp only [buildPairs_length]
    omega
  unfold addRowToBuffer
  rw [hfind]
  simp only [if_neg hsize]
  unfold getNewPositionForValue
  simp only [buildPairs_length]
  rfl

theorem addRowToBuffer_found_step (fvi evi cnt fbi j : Nat) (hj : j < cnt) :
    addRowToBuffer (fbi + j) ⟨buildPairs fbi cnt⟩ fvi evi cnt = (j, ⟨buildPairs fbi cnt⟩) := by
  have hfind : getValuePosition ⟨buildPairs fbi cnt⟩ (fbi + j) = some j := by
    rw [getValuePosition_buildPairs, if_pos (by omega)]
    congr 1
    omega
  unfold addRowToBuffer
  rw [hfind]

theorem offsetsLoopAux_from_empty (p : Params) (fvi evi ebi cnt fbi : Nat)
    (hcnt : cnt = ebi - fbi) (hle : fbi ≤ ebi) :
    ∀ (fuel j : Nat) (t : Int) (c : Nat → Option Int),
      fbi + j + fuel = ebi →
      offsetsLoopAux p fvi evi ebi cnt false fuel (fbi + j) t c (buildMap fbi j)
          ⟨buildPairs fbi j⟩ =
        (cacheRun p ebi fuel (fbi + j) t c, buildMap fbi (j + fuel),
          ⟨buildPairs fbi (j + fuel)⟩) := by
  intro fuel
  induction fuel with
  | zero =>
    intro j t c hj
    rfl
  | succ n ih =>
    intro j t c hj
    have hlt : fbi + j < ebi := by omega
    have hadd := addRowToBuffer_fresh_step fvi evi cnt fbi j (by omega)
    simp only [offsetsLoopAux, cacheRun, if_pos hlt, Bool.false_and, Bool.false_eq_true,
      if_false, hadd, slotSet_buildMap]
    have h1 : fbi + j + 1 = fbi + (j + 1) := by omega
    rw [h1, ih (j + 1) _ _ (by omega)]
    have h2 : j + 1 + n = j + (n + 1) := by omega
    rw [h2]

theorem offsetsLoopAux_all_found (p : Params) (fvi evi ebi cnt fbi : Nat)
    (hcnt : cnt = ebi - fbi) (hle : fbi ≤ ebi) :
    ∀ (fuel j : Nat) (t : Int) (c : Nat → Option Int),
      fbi + j + fuel = ebi →
      offsetsLoopAux p fvi evi ebi cnt false fuel (fbi + j) t c (buildMap fbi j)
          ⟨buildPairs fbi cnt⟩ =
        (cacheRun p ebi fuel (fbi + j) t c, buildMap fbi (j + fuel),
          ⟨buildPairs fbi cnt⟩) := by
  intro fuel
  induction fuel with
  | zero =>
    intro j t c hj
    rfl
  | succ n ih =>
    intro j t c hj
    have hlt : fbi + j < ebi := by omega
    have hadd := addRowToBuffer_found_step fvi evi cnt fbi j (by omega)
    simp only [offsetsLoopAux, cacheRun, if_pos hlt, Bool.false_and, Bool.false_eq_true,
      if_false, hadd, slotSet_buildMap]
    have h1 : fbi + j + 1 = fbi + (j + 1) := by omega
    rw [h1, ih (j + 1) _ _ (by omega)]
    have h2 : j + 1 + n = j + (n + 1) := by omega
    rw [h2]

theorem computeRenderedRowOffsets_from_empty (p : Params) (st : TableState) (rr : RowRange)
    (hbs : st.bufferSet = ⟨[]⟩) (hcnt : rr.endBufferIdx - rr.firstBufferIdx ≠ 0) :
    computeRenderedRowOffsets p st rr false =
      { st with
        rowHeights := cacheRun p rr.endBufferIdx (rr.endBufferIdx - rr.firstBufferIdx)
          rr.firstBufferIdx (sumUntil p rr.firstBufferIdx) (fun _ => none),
        rows := buildMap rr.firstBufferIdx (rr.endBufferIdx - rr.firstBufferIdx),
        bufferSet := ⟨buildPairs rr.firstBufferIdx (rr.endBufferIdx - rr.firstBufferIdx)⟩ } := by
  have hloop := offsetsLoopAux_from_empty p rr.firstViewportIdx rr.endViewportIdx
    rr.endBufferIdx (rr.endBufferIdx - rr.firstBufferIdx) rr.firstBufferIdx rfl (by omega)
    (rr.endBufferIdx - rr.firstBufferIdx) 0 (sumUntil p rr.firstBufferIdx) (fun _ => none)
    (by omega)
  simp only [Nat.add_zero, Nat.zero_add] at hloop
  simp only [computeRenderedRowOffsets, offsetsLoop, if_neg hcnt, Bool.false_eq_true,
    if_false, hbs]
  rw [show (buildMap rr.firstBufferIdx 0) = ([] : List (Nat × Nat)) from rfl] at hloop
  rw [show (buildPairs rr.firstBufferIdx 0) = ([] : List (Nat × Nat)) from rfl] at hloop
  rw [hloop]

theorem computeRenderedRowOffsets_all_found (p : Params) (st : TableState) (rr : RowRange)
    (hbs : st.bufferSet =
      ⟨buildPairs rr.firstBufferIdx (rr.endBufferIdx - rr.firstBufferIdx)⟩)
    (hcnt : rr.endBufferIdx - rr.firstBufferIdx ≠ 0) :
    computeRenderedRowOffsets p st rr false =
      { st with
        rowHeights := cacheRun p rr.endBufferIdx (rr.endBufferIdx - rr.firstBufferIdx)
          rr.firstBufferIdx (sumUntil p rr.firstBufferIdx) (fun _ => none),
        rows := buildMap rr.firstBufferIdx (rr.endBufferIdx - rr.firstBufferIdx),
        bufferSet := ⟨buildPairs rr.firstBufferIdx (rr.endBufferIdx - rr.firstBufferIdx)⟩ } := by
  have hloop := offsetsLoopAux_all_found p rr.firstViewportIdx rr.endViewportIdx
    rr.endBufferIdx (rr.endBufferIdx - rr.firstBufferIdx) rr.firstBufferIdx rfl (by omega)
    (rr.endBufferIdx - rr.firstBufferIdx) 0 (sumUntil p rr.firstBufferIdx) (fun _ => none)
    (by omega)
  simp only [Nat.add_zero, Nat.zero_add] at hloop
  simp only [computeRenderedRowOffsets, offsetsLoop, if_neg hcnt, Bool.false_eq_true,
    if_false, hbs]
  rw [show (buildMap rr.firstBufferIdx 0) = ([] : List (Nat × Nat)) from rfl] at hloop
  rw [hloop]

/-- C4 (amended): a full-mode run of computeRenderedRowOffsets over a
non-empty row range, started with an EMPTY slot pool, yields a freshly
built rows array (its value is the explicit buildMap, independent of the
previous rows array) whose row-index values are exactly the integers in
[firstBufferIdx, endBufferIdx).  The emptiness hypothesis is needed: with
stale occupants closer to the viewport than the leading buffer rows, a
later range row can evict an earlier range row of this very pass and the
overwritten slot loses that row (see the counterexample). -/
theorem full_mode_rows_exact_amended (p : Params) (st : TableState) (rr : RowRange)
    (hbs : st.bufferSet = ⟨[]⟩) (hcnt : rr.endBufferIdx - rr.firstBufferIdx ≠ 0) :
    (computeRenderedRowOffsets p st rr false).rows =
      buildMap rr.firstBufferIdx (rr.endBufferIdx - rr.firstBufferIdx) ∧
    ∀ r : Nat, r ∈ ((computeRenderedRowOffsets p st rr false).rows.map Prod.snd) ↔
      (rr.firstBufferIdx ≤ r ∧ r < rr.endBufferIdx) := by
  rw [computeRenderedRowOffsets_from_empty p st rr hbs hcnt]
  refine ⟨rfl, ?_⟩
  intro r
  simp only []
  rw [mem_map_snd_buildMap]
  omega

/-- C4 witness: the empty-pool full pass over buffer range [2, 6) renders
exactly the rows 2, 3, 4, 5. -/
theorem full_mode_rows_exact_amended_witness :
    st0.bufferSet = ⟨[]⟩ ∧
    rrSix.endBufferIdx - rrSix.firstBufferIdx ≠ 0 ∧
    ∀ r : Nat, r ∈ ((computeRenderedRowOffsets pSix st0 rrSix false).rows.map Prod.snd) ↔
      (rrSix.firstBufferIdx ≤ r ∧ r < rrSix.endBufferIdx) :=
  ⟨rfl, by decide, (full_mode_rows_exact_amended pSix st0 rrSix rfl (by decide)).2⟩

/-- C4 counterexample: over the range [2, 6) with viewport [4, 6) and a
pool holding only the stale row 6 (distance 1 from the protected interval
[4, 5]), rows 2, 3, 4 are added fresh, and row 5 then evicts row 2 (its
distance 2 is the strict maximum among occupants outside the viewport), so
the slot that held row 2 is overwritten with 5: the resulting rows array
misses row 2 and its value set is NOT all of [firstBufferIdx,
endBufferIdx). -/
theorem full_mode_rows_eviction_cex :
    rrSix.firstBufferIdx ≤ 2 ∧ 2 < rrSix.endBufferIdx ∧
    rrSix.endBufferIdx - rrSix.firstBufferIdx ≠ 0 ∧
    ¬ 2 ∈ ((computeRenderedRowOffsets pSix stPool6 rrSix false).rows.map Prod.snd) := by
  decide

theorem not_inRangeB_iff (n lo hi : Nat) :
    ((!(inRangeB n lo hi)) = true) ↔ ¬(lo ≤ n ∧ n < hi) := by
  simp [inRangeB]
  omega

/-- C2 (amended): in viewport-only mode over a non-empty range, (1) every
row index present in the resulting rows mapping (hence in particular one
present in both the previous and the resulting mapping) that lies outside
[firstBufferIdx, endBufferIdx) gets in the resulting rowHeights exactly its
entry from the previous rowHeights; (2) a row index outside the range that
is absent from the resulting mapping does not appear in the resulting
rowHeights; but (3) every row index INSIDE the range appears in the
resulting rowHeights with a freshly computed offset even when it is present
in neither mapping, so the absence guarantee of the claim holds only
outside the recomputed range. -/
theorem viewport_carryover_amended (p : Params) (st : TableState) (rr : RowRange) (r : Nat)
    (hcnt : rr.endBufferIdx - rr.firstBufferIdx ≠ 0) :
    (r ∈ ((computeRenderedRowOffsets p st rr true).rows.map Prod.snd) →
      ¬ (rr.firstBufferIdx ≤ r ∧ r < rr.endBufferIdx) →
      (computeRenderedRowOffsets p st rr true).rowHeights r = st.rowHeights r) ∧
    (¬ (rr.firstBufferIdx ≤ r ∧ r < rr.endBufferIdx) →
      ¬ r ∈ ((computeRenderedRowOffsets p st rr true).rows.map Prod.snd) →
      (computeRenderedRowOffsets p st rr true).rowHeights r = none) ∧
    (rr.firstBufferIdx ≤ r → r < rr.endBufferIdx →
      (computeRenderedRowOffsets p st rr true).rowHeights r ≠ none) := by
  have hrows : (computeRenderedRowOffsets p st rr true).rows =
      (offsetsLoopAux p rr.firstViewportIdx rr.endViewportIdx rr.endBufferIdx
        (rr.endBufferIdx - rr.firstBufferIdx) true (rr.endBufferIdx - rr.firstBufferIdx)
        rr.firstBufferIdx (sumUntil p rr.firstBufferIdx) (fun _ => none) st.rows
        st.bufferSet).2.1 := by
    simp only [computeRenderedRowOffsets, offsetsLoop, if_neg hcnt, if_true]
  have hheights : (computeRenderedRowOffsets p st rr true).rowHeights r =
      copyOver st.rowHeights
        (((computeRenderedRowOffsets p st rr true).rows.map Prod.snd).filter
          (fun x => !(inRangeB x rr.firstBufferIdx rr.endBufferIdx)))
        (cacheRun p rr.endBufferIdx (rr.endBufferIdx - rr.firstBufferIdx) rr.firstBufferIdx
          (sumUntil p rr.firstBufferIdx) (fun _ => none)) r := by
    simp only [computeRenderedRowOffsets, offsetsLoop, if_neg hcnt, if_true]
    rw [offsetsLoopAux_cache]
  refine ⟨?_, ?_, ?_⟩
  · intro hmem houtside
    rw [hheights, copyOver_lookup]
    rw [if_pos (List.mem_filter.mpr ⟨hmem, (not_inRangeB_iff r _ _).mpr houtside⟩)]
  · intro houtside hmem
    have hnot : ¬ r ∈ (((computeRenderedRowOffsets p st rr true).rows.map Prod.snd).filter
        (fun x => !(inRangeB x rr.firstBufferIdx rr.endBufferIdx))) := by
      intro hin
      exact hmem (List.mem_filter.mp hin).1
    rw [hheights, copyOver_lookup, if_neg hnot]
    rw [cacheRun_outside p rr.endBufferIdx _ _ _ _ r (by omega)]
  · intro h1 h2
    have hnot : ¬ r ∈ (((computeRenderedRowOffsets p st rr true).rows.map Prod.snd).filter
        (fun x => !(inRangeB x rr.firstBufferIdx rr.endBufferIdx))) := by
      intro hin
      exact ((not_inRangeB_iff r _ _).mp (List.mem_filter.mp hin).2) ⟨h1, h2⟩
    rw [hheights, copyOver_lookup, if_neg hnot]
    exact cacheRun_inside p rr.endBufferIdx _ _ _ _ r h1 (by omega) h2

/-- C2 witness: the stale row 100 is present in both the previous and the
resulting mapping, lies outside [2, 6), and keeps its previous offset
777. -/
theorem viewport_carryover_amended_witness :
    rrSix.endBufferIdx - rrSix.firstBufferIdx ≠ 0 ∧
    100 ∈ ((computeRenderedRowOffsets pSix stOld100 rrSix true).rows.map Prod.snd) ∧
    ¬ (rrSix.firstBufferIdx ≤ 100 ∧ 100 < rrSix.endBufferIdx) ∧
    (computeRenderedRowOffsets pSix stOld100 rrSix true).rowHeights 100 =
      stOld100.rowHeights 100 :=
  ⟨by decide, by decide, by decide,
    (viewport_carryover_amended pSix stOld100 rrSix 100 (by decide)).1 (by decide) (by decide)⟩

/-- C2 counterexample: over the range [2, 6) with viewport [4, 6), row 2 is
present in neither the previous mapping (empty) nor the resulting mapping
(the viewport-only pass only assigns slots to rows 4 and 5), yet it DOES
appear in the resulting rowHeights, because the ascending offset walk
covers the whole buffer range; this falsifies the claim that row indices
present in neither mapping do not appear in the resulting rowHeights. -/
theorem viewport_carryover_absent_rows_cex :
    rrSix.endBufferIdx - rrSix.firstBufferIdx ≠ 0 ∧
    ¬ 2 ∈ (st0.rows.map Prod.snd) ∧
    ¬ 2 ∈ ((computeRenderedRowOffsets pSix st0 rrSix true).rows.map Prod.snd) ∧
    (computeRenderedRowOffsets pSix st0 rrSix true).rowHeights 2 ≠ none := by
  decide

theorem calculateRenderedRowRange_snd_pure (p : Params) (st st2 : TableState)
    (a : ScrollAnchor) :
    (calculateRenderedRowRange p st a).2 = (calculateRenderedRowRange p st2 a).2 := by
  unfold calculateRenderedRowRange
  cases hc : calcRangeCore p a with
  | none => rfl
  | some v =>
    obtain ⟨rr, fri, fro⟩ := v
    rfl

theorem calculateRenderedRowRange_writes_pure (p : Params) (st st2 : TableState)
    (a : ScrollAnchor) (hrc : 0 < p.rowsCount) :
    (calculateRenderedRowRange p st a).1.firstRowIndex =
      (calculateRenderedRowRange p st2 a).1.firstRowIndex ∧
    (calculateRenderedRowRange p st a).1.firstRowOffset =
      (calculateRenderedRowRange p st2 a).1.firstRowOffset := by
  obtain ⟨v, hc⟩ := calcRangeCore_isSome p a hrc
  obtain ⟨rr, fri, fro⟩ := v
  unfold calculateRenderedRowRange
  rw [hc]
  exact ⟨rfl, rfl⟩

theorem calculateRenderedRowRange_preserves (p : Params) (st : TableState) (a : ScrollAnchor) :
    (calculateRenderedRowRange p st a).1.rows = st.rows ∧
    (calculateRenderedRowRange p st a).1.rowHeights = st.rowHeights ∧
    (calculateRenderedRowRange p st a).1.bufferSet = st.bufferSet ∧
    (calculateRenderedRowRange p st a).1.scrolling = st.scrolling ∧
    (calculateRenderedRowRange p st a).1.scrollY = st.scrollY := by
  unfold calculateRenderedRowRange
  cases hc : calcRangeCore p a with
  | none => exact ⟨rfl, rfl, rfl, rfl, rfl⟩
  | some v =>
    obtain ⟨rr, fri, fro⟩ := v
    exact ⟨rfl, rfl, rfl, rfl, rfl⟩

theorem calculateRenderedRowRange_nonempty (p : Params) (st : TableState) (a : ScrollAnchor)
    (h : 0 < p.rowsCount) :
    (calculateRenderedRowRange p st a).2.firstBufferIdx <
      (calculateRenderedRowRange p st a).2.endBufferIdx := by
  obtain ⟨v, hc⟩ := calcRangeCore_isSome p a h
  obtain ⟨rr, fri, fro⟩ := v
  have hb := calcRangeCore_bounds p a rr fri fro hc
  unfold calculateRenderedRowRange
  rw [hc]
  exact hb.2.2.2.2

theorem resolvedPair_range_cases (p : Params) (st : TableState) (a : ScrollAnchor) :
    (resolvedPair p st a).2 = (calculateRenderedRowRange p st a).2 ∨
    (resolvedPair p st a).2 =
      (calculateRenderedRowRange p (calculateRenderedRowRange p st a).1 (reAnchor p)).2 := by
  unfold resolvedPair
  by_cases hm : p.scrollContentHeight - p.bodyHeight = 0
  · simp only [if_pos hm]
    by_cases hv : 0 < (calculateRenderedRowRange p st a).2.firstViewportIdx
    · right
      simp only [if_pos hv]
    · left
      simp only [if_neg hv]
  · left
    simp only [if_neg hm]

theorem resolvedPair_nonempty (p : Params) (st : TableState) (a : ScrollAnchor)
    (h : 0 < p.rowsCount) :
    (resolvedPair p st a).2.firstBufferIdx < (resolvedPair p st a).2.endBufferIdx := by
  rcases resolvedPair_range_cases p st a with hcase | hcase <;> rw [hcase]
  · exact calculateRenderedRowRange_nonempty p st a h
  · exact calculateRenderedRowRange_nonempty p _ (reAnchor p) h

theorem resolvedPair_preserves (p : Params) (st : TableState) (a : ScrollAnchor) :
    (resolvedPair p st a).1.rows = st.rows ∧
    (resolvedPair p st a).1.rowHeights = st.rowHeights ∧
    (resolvedPair p st a).1.bufferSet = st.bufferSet ∧
    (resolvedPair p st a).1.scrolling = st.scrolling ∧
    (resolvedPair p st a).1.scrollY = st.scrollY := by
  have hA := calculateRenderedRowRange_preserves p st a
  have hB := calculateRenderedRowRange_preserves p (calculateRenderedRowRange p st a).1
    (reAnchor p)
  unfold resolvedPair
  by_cases hm : p.scrollContentHeight - p.bodyHeight = 0
  · simp only [if_pos hm]
    by_cases hv : 0 < (calculateRenderedRowRange p st a).2.firstViewportIdx
    · simp only [if_pos hv]
      exact ⟨by rw [hB.1, hA.1], by rw [hB.2.1, hA.2.1], by rw [hB.2.2.1, hA.2.2.1],
        by rw [hB.2.2.2.1, hA.2.2.2.1], by rw [hB.2.2.2.2, hA.2.2.2.2]⟩
    · simp only [if_neg hv]
      exact hA
  · simp only [if_neg hm]
    exact hA

attribute [ext] TableState

theorem resolvedPair_writes_pure (p : Params) (st st2 : TableState) (a : ScrollAnchor)
    (hrc : 0 < p.rowsCount) :
    (resolvedPair p st a).2 = (resolvedPair p st2 a).2 ∧
    (resolvedPair p st a).1.firstRowOffset = (resolvedPair p st2 a).1.firstRowOffset ∧
    (resolvedPair p st a).1.firstRowIndex = (resolvedPair p st2 a).1.firstRowIndex := by
  have h1 := calculateRenderedRowRange_snd_pure p st st2 a
  have h2 := calculateRenderedRowRange_writes_pure p st st2 a hrc
  have h3 := calculateRenderedRowRange_snd_pure p
    (calculateRenderedRowRange p st a).1 (calculateRenderedRowRange p st2 a).1 (reAnchor p)
  have h4 := calculateRenderedRowRange_writes_pure p
    (calculateRenderedRowRange p st a).1 (calculateRenderedRowRange p st2 a).1 (reAnchor p) hrc
  unfold resolvedPair
  by_cases hm : p.scrollContentHeight - p.bodyHeight = 0
  · simp only [if_pos hm]
    rw [h1]
    by_cases hv : 0 < (calculateRenderedRowRange p st2 a).2.firstViewportIdx
    · simp only [if_pos hv]
      exact ⟨h3, trivial, h4.1⟩
    · simp only [if_neg hv]
      exact ⟨h1, trivial, h2.1⟩
  · simp only [if_neg hm]
    exact ⟨h1, h2.2, h2.1⟩

theorem computeRenderedRowOffsets_preserves (p : Params) (st : TableState) (rr : RowRange)
    (vp : Bool) :
    (computeRenderedRowOffsets p st rr vp).firstRowIndex = st.firstRowIndex ∧
    (computeRenderedRowOffsets p st rr vp).firstRowOffset = st.firstRowOffset ∧
    (computeRenderedRowOffsets p st rr vp).scrolling = st.scrolling ∧
    (computeRenderedRowOffsets p st rr vp).scrollY = st.scrollY := by
  refine ⟨?_, ?_, ?_, ?_⟩ <;>
  · simp only [computeRenderedRowOffsets]
    split
    · rfl
    · rfl

theorem computeRenderedRowOffsets_empty_range (p : Params) (st : TableState) (rr : RowRange)
    (vp : Bool) (h : rr.endBufferIdx - rr.firstBufferIdx = 0) :
    computeRenderedRowOffsets p st rr vp =
      { st with rowHeights := fun _ => none, rows := [] } := by
  simp only [computeRenderedRowOffsets, if_pos h]

theorem computeRenderedRows_fields (p : Params) (st : TableState) (a : ScrollAnchor) :
    (computeRenderedRows p st a).firstRowIndex = (resolvedPair p st a).1.firstRowIndex ∧
    (computeRenderedRows p st a).firstRowOffset = (resolvedPair p st a).1.firstRowOffset ∧
    (computeRenderedRows p st a).rows =
      (computeRenderedRowOffsets p (resolvedPair p st a).1 (resolvedPair p st a).2
        st.scrolling).rows ∧
    (computeRenderedRows p st a).rowHeights =
      (computeRenderedRowOffsets p (resolvedPair p st a).1 (resolvedPair p st a).2
        st.scrolling).rowHeights ∧
    (computeRenderedRows p st a).bufferSet =
      (computeRenderedRowOffsets p (resolvedPair p st a).1 (resolvedPair p st a).2
        st.scrolling).bufferSet ∧
    (computeRenderedRows p st a).scrolling = st.scrolling ∧
    (computeRenderedRows p st a).maxScrollY = p.scrollContentHeight - p.bodyHeight ∧
    (computeRenderedRows p st a).scrollY =
      clampInt (resolvedScrollY p st a) 0 (p.scrollContentHeight - p.bodyHeight) ∧
    (computeRenderedRows p st a).scrollJumpedY =
      (a.scrollJumpedY && decide (resolvedScrollY p st a ≠ st.scrollY)) := by
  have hpres := computeRenderedRowOffsets_preserves p (resolvedPair p st a).1
    (resolvedPair p st a).2 st.scrolling
  have hscr := (resolvedPair_preserves p st a).2.2.2.1
  exact ⟨hpres.1, hpres.2.1, rfl, rfl, rfl, (hpres.2.2.1).trans hscr, rfl, rfl, rfl⟩

theorem calcRangeCore_none_of_zero (p : Params) (a : ScrollAnchor) (h : p.rowsCount = 0) :
    calcRangeCore p a = none := by
  unfold calcRangeCore
  rw [if_pos h]

theorem calculateRenderedRowRange_zero (p : Params) (st : TableState) (a : ScrollAnchor)
    (h : p.rowsCount = 0) :
    calculateRenderedRowRange p st a = (st, ⟨0, 0, 0, 0⟩) := by
  unfold calculateRenderedRowRange
  rw [calcRangeCore_none_of_zero p a h]

theorem resolvedPair_zero (p : Params) (st : TableState) (a : ScrollAnchor)
    (h : p.rowsCount = 0) :
    resolvedPair p st a =
      ((if p.scrollContentHeight - p.bodyHeight = 0 then
          { st with firstRowOffset := 0 } else st), ⟨0, 0, 0, 0⟩) := by
  unfold resolvedPair
  rw [calculateRenderedRowRange_zero p st a h]
  by_cases hm : p.scrollContentHeight - p.bodyHeight = 0
  · simp only [if_pos hm, if_neg (show ¬ (0 : Nat) < 0 from by omega)]
  · simp only [if_neg hm]

theorem resolvedScrollY_zero (p : Params) (st : TableState) (a : ScrollAnchor)
    (h : ¬ 0 < p.rowsCount) : resolvedScrollY p st a = 0 := by
  unfold resolvedScrollY
  simp only []
  rw [if_neg h]

theorem computeRenderedRows_zero_parts (p : Params) (st : TableState) (a : ScrollAnchor)
    (h : p.rowsCount = 0) :
    (computeRenderedRows p st a).rows = [] ∧
    (computeRenderedRows p st a).rowHeights = (fun _ => none) ∧
    (computeRenderedRows p st a).bufferSet = st.bufferSet := by
  have hfld := computeRenderedRows_fields p st a
  have hz := resolvedPair_zero p st a h
  have hrr : (resolvedPair p st a).2 = (⟨0, 0, 0, 0⟩ : RowRange) := by rw [hz]
  have hemp := computeRenderedRowOffsets_empty_range p (resolvedPair p st a).1
    (resolvedPair p st a).2 st.scrolling (by rw [hrr]; rfl)
  refine ⟨?_, ?_, ?_⟩
  · rw [hfld.2.2.1, hemp]
  · rw [hfld.2.2.2.1, hemp]
  · rw [hfld.2.2.2.2.1, hemp]
    exact (resolvedPair_preserves p st a).2.2.1

/-- C5 (amended): calling computeRenderedRows twice with the identical
ScrollAnchor, the second call on the state returned by the first (the
mutated slot pool included), yields the identical RenderState in every
field, PROVIDED the anchor does not request a scroll jump, the input is not
scrolling (full-recompute mode), and the slot pool is empty before the
first call.  Without the jump proviso the flag breaks idempotence: the
first call reports a jump that moved the position, the second compares
against the already-moved position and reports none (see the
counterexample); the pool proviso rules out intra-pass eviction, which can
likewise change slot assignments between the two calls. -/
theorem idempotent_rerun_amended (p : Params) (st : TableState) (a : ScrollAnchor)
    (hjump : a.scrollJumpedY = false) (hscroll : st.scrolling = false)
    (hbs : st.bufferSet = ⟨[]⟩) :
    computeRenderedRows p (computeRenderedRows p st a) a = computeRenderedRows p st a := by
  have hF := computeRenderedRows_fields p st a
  have hG := computeRenderedRows_fields p (computeRenderedRows p st a) a
  have hscroll1 : (computeRenderedRows p st a).scrolling = false :=
    (hF.2.2.2.2.2.1).trans hscroll
  by_cases hrc : 0 < p.rowsCount
  · have hpure := resolvedPair_writes_pure p (computeRenderedRows p st a) st a hrc
    have hne : (resolvedPair p st a).2.endBufferIdx -
        (resolvedPair p st a).2.firstBufferIdx ≠ 0 := by
      have := resolvedPair_nonempty p st a hrc
      omega
    have hbs0 : (resolvedPair p st a).1.bufferSet = ⟨[]⟩ := by
      rw [(resolvedPair_preserves p st a).2.2.1, hbs]
    have hoff1 := computeRenderedRowOffsets_from_empty p (resolvedPair p st a).1
      (resolvedPair p st a).2 hbs0 hne
    have hst1rows : (computeRenderedRows p st a).rows =
        buildMap (resolvedPair p st a).2.firstBufferIdx
          ((resolvedPair p st a).2.endBufferIdx - (resolvedPair p st a).2.firstBufferIdx) := by
      rw [hF.2.2.1, hscroll, hoff1]
    have hst1heights : (computeRenderedRows p st a).rowHeights =
        cacheRun p (resolvedPair p st a).2.endBufferIdx
          ((resolvedPair p st a).2.endBufferIdx - (resolvedPair p st a).2.firstBufferIdx)
          (resolvedPair p st a).2.firstBufferIdx
          (sumUntil p (resolvedPair p st a).2.firstBufferIdx) (fun _ => none) := by
      rw [hF.2.2.2.1, hscroll, hoff1]
    have hst1bs : (computeRenderedRows p st a).bufferSet =
        ⟨buildPairs (resolvedPair p st a).2.firstBufferIdx
          ((resolvedPair p st a).2.endBufferIdx - (resolvedPair p st a).2.firstBufferIdx)⟩ := by
      rw [hF.2.2.2.2.1, hscroll, hoff1]
    have hbs1 : (resolvedPair p (computeRenderedRows p st a) a).1.bufferSet =
        ⟨buildPairs (resolvedPair p (computeRenderedRows p st a) a).2.firstBufferIdx
          ((resolvedPair p (computeRenderedRows p st a) a).2.endBufferIdx -
            (resolvedPair p (computeRenderedRows p st a) a).2.firstBufferIdx)⟩ := by
      rw [(resolvedPair_preserves p (computeRenderedRows p st a) a).2.2.1, hst1bs, hpure.1]
    have hne1 : (resolvedPair p (computeRenderedRows p st a) a).2.endBufferIdx -
        (resolvedPair p (computeRenderedRows p st a) a).2.firstBufferIdx ≠ 0 := by
      rw [hpure.1]
      exact hne
    have hoff2 := computeRenderedRowOffsets_all_found p
      (resolvedPair p (computeRenderedRows p st a) a).1
      (resolvedPair p (computeRenderedRows p st a) a).2 hbs1 hne1
    have hresY : resolvedScrollY p (computeRenderedRows p st a) a = resolvedScrollY p st a := by
      unfold resolvedScrollY offsetsRun
      simp only []
      rw [if_pos hrc, if_pos hrc]
      rw [hscroll1, hscroll, hoff1, hoff2, hpure.1]
      simp only []
      rw [hpure.2.1]
    apply TableState.ext
    · rw [hG.1, hF.1, hpure.2.2]
    · rw [hG.2.1, hF.2.1, hpure.2.1]
    · rw [hG.2.2.1, hscroll1, hoff2, hpure.1, hst1rows]
    · rw [hG.2.2.2.1, hscroll1, hoff2, hpure.1, hst1heights]
    · rw [hG.2.2.2.2.2.2.2.1, hF.2.2.2.2.2.2.2.1, hresY]
    · exact hG.2.2.2.2.2.1
    · rw [hG.2.2.2.2.2.2.1, hF.2.2.2.2.2.2.1]
    · rw [hG.2.2.2.2.2.2.2.2, hF.2.2.2.2.2.2.2.2, hjump]
      simp
    · rw [hG.2.2.2.2.1, hscroll1, hoff2, hpure.1, hst1bs]
  · have hrc0 : p.rowsCount = 0 := by omega
    have hz1 := resolvedPair_zero p st a hrc0
    have hz2 := resolvedPair_zero p (computeRenderedRows p st a) a hrc0
    have hp1 := computeRenderedRows_zero_parts p st a hrc0
    have hp2 := computeRenderedRows_zero_parts p (computeRenderedRows p st a) a hrc0
    have hres1 := resolvedScrollY_zero p st a hrc
    have hres2 := resolvedScrollY_zero p (computeRenderedRows p st a) a hrc
    apply TableState.ext
    · rw [hG.1, hz2]
      split
      · rfl
      · rfl
    · rw [hG.2.1, hz2]
      split
      · rename_i hm
        rw [hF.2.1, hz1]
        rw [if_pos hm]
      · rfl
    · rw [hp2.1, hp1.1]
    · rw [hp2.2.1, hp1.2.1]
    · rw [hG.2.2.2.2.2.2.2.1, hF.2.2.2.2.2.2.2.1, hres1, hres2]
    · exact hG.2.2.2.2.2.1
    · rw [hG.2.2.2.2.2.2.1, hF.2.2.2.2.2.2.1]
    · rw [hG.2.2.2.2.2.2.2.2, hF.2.2.2.2.2.2.2.2, hjump]
      simp
    · rw [hp2.2.2]

/-- C5 counterexample: with one row of height 10, input scrollY 5 and an
anchor requesting a jump, the first call resolves scrollY to 0 (a change,
so scrollJumpedY = true) and clamps it to 0; the second, identical call
then compares the same resolved 0 against the already-updated scrollY 0 and
reports scrollJumpedY = false, so the two RenderStates differ. -/
theorem idempotent_rerun_jump_cex :
    (computeRenderedRows pOne stJump aJump).scrollJumpedY = true ∧
    (computeRenderedRows pOne (computeRenderedRows pOne stJump aJump) aJump).scrollJumpedY =
      false := by
  decide

/-- C5 witness: with no jump requested, a non-scrolling state and an empty
pool, the second call reproduces the first exactly. -/
theorem idempotent_rerun_amended_witness :
    aNone.scrollJumpedY = false ∧ st0.scrolling = false ∧ st0.bufferSet = ⟨[]⟩ ∧
    computeRenderedRows pOne (computeRenderedRows pOne st0 aNone) aNone =
      computeRenderedRows pOne st0 aNone :=
  ⟨rfl, rfl, rfl, idempotent_rerun_amended pOne st0 aNone rfl rfl rfl⟩

theorem offsetsLoopOldAux_eq (p : Params) (fvi evi ebi cnt : Nat) :
    ∀ (fuel rowIdx : Nat) (t : Int) (c : Nat → Option Int) (mapping : List (Nat × Nat))
      (bs : BufferSet),
      offsetsLoopOldAux p fvi evi ebi cnt fuel rowIdx t c mapping bs =
        offsetsLoopAux p fvi evi ebi cnt false fuel rowIdx t c mapping bs := by
  intro fuel
  induction fuel with
  | zero => intros; rfl
  | succ n ih =>
    intro rowIdx t c mapping bs
    simp only [offsetsLoopOldAux, offsetsLoopAux, Bool.false_and, Bool.false_eq_true, if_false]
    split
    · exact ih (rowIdx + 1) _ _ _ _
    · rfl

theorem computeRenderedRowOffsetsOld_eq (p : Params) (st : TableState) (rr : RowRange) :
    computeRenderedRowOffsetsOld p st rr = computeRenderedRowOffsets p st rr false := by
  simp only [computeRenderedRowOffsetsOld, computeRenderedRowOffsets, offsetsLoop,
    Bool.false_eq_true, if_false]
  rw [offsetsLoopOldAux_eq]

/-- C8: for every input state with scrolling false and rowsCount > 0, the
earlier evolution (part_000) and the unified version produce identical
output states: on this path both run the maxScrollY edge case and then one
full recompute of the offsets, the two offset passes are the same loop (the
unified one merely carries an inactive viewport-only flag), and the only
other textual difference, the initialization of scrollY (previous scrollY
versus 0), is overwritten whenever rowsCount > 0. -/
theorem old_new_full_path_equiv (p : Params) (st : TableState) (a : ScrollAnchor)
    (hscroll : st.scrolling = false) (hrc : 0 < p.rowsCount) :
    computeRenderedRowsOld p st a = computeRenderedRows p st a := by
  simp only [computeRenderedRowsOld, computeRenderedRows, resolvedScrollY, offsetsRun]
  rw [hscroll]
  simp only [Bool.false_eq_true, if_false, if_pos hrc]
  rw [computeRenderedRowOffsetsOld_eq]

/-- C8 witness: a concrete non-scrolling single-row state on which the two
evolutions coincide. -/
theorem old_new_full_path_equiv_witness :
    st0.scrolling = false ∧ 0 < pOne.rowsCount ∧
    computeRenderedRowsOld pOne st0 aNone = computeRenderedRows pOne st0 aNone :=
  ⟨rfl, by decide, old_new_full_path_equiv pOne st0 aNone rfl (by decide)⟩
